import Mathlib

/-!
# Verification of the pve-exporter collection pipeline

A shallow embedding of the metric-collection code of the `pve-exporter`
repository (Go), together with theorems settling the specification claims.

Conventions of the embedding:
* Go `float64` metric values are modelled as exact rationals (`ℚ`);
  the claims under study are about the algebraic relations the code
  computes, not about rounding of IEEE doubles.
* Go strings are modelled as `String` / `List Char`.
* Go maps keyed by strings are modelled as association lists with
  overwrite-on-insert semantics.
* Fallible operations return `Option`.
-/

namespace PveExporter

/-- A Prometheus metric sample as produced by `prometheus.MustNewConstMetric`:
a descriptor name, the ordered label values, and the numeric value. -/
structure Sample where
  name   : String
  labels : List String
  value  : ℚ
  deriving DecidableEq, Repr

/-! ## Generic character and string helpers (models of Go's `strings` helpers) -/

/-- Whitespace recognised by `strings.Fields` / `strings.TrimSpace`
(restricted to the ASCII space characters that occur in the inputs at hand). -/
def isWS (c : Char) : Bool :=
  c = ' ' || c = '\t' || c = '\n' || c = '\r'

/-- Model of `strings.Fields`: split a character list on runs of whitespace. -/
def wsFieldsAux : List Char → List Char → List (List Char)
  | [], acc => if acc = [] then [] else [acc.reverse]
  | c :: rest, acc =>
    if isWS c then
      if acc = [] then wsFieldsAux rest []
      else acc.reverse :: wsFieldsAux rest []
    else wsFieldsAux rest (c :: acc)

/-- Model of `strings.Fields` on a character list. -/
def wsFields (cs : List Char) : List (List Char) :=
  wsFieldsAux cs []

/-- Parse a nonempty all-digit character list as a natural number
(the digit-string fragment of Go's number parsing). -/
def digitsToNat : List Char → Option Nat
  | [] => none
  | cs =>
    if cs.all Char.isDigit then
      some (cs.foldl (fun n c => n * 10 + (c.toNat - 48)) 0)
    else none

/-- Model of `strconv.ParseFloat` restricted to optionally-sign-prefixed
decimal integers — the shape every numeric field of the kstat and
SMART inputs under study takes. -/
def parseGoNumber (cs : List Char) : Option ℚ :=
  match cs with
  | '-' :: rest => (digitsToNat rest).map (fun n => -(n : ℚ))
  | _ => (digitsToNat cs).map (fun n => (n : ℚ))

/-- Drop a literal prefix, or fail. -/
def dropLit : List Char → List Char → Option (List Char)
  | [], cs => some cs
  | _, [] => none
  | l :: ls, c :: cs => if c = l then dropLit ls cs else none

/-- Require at least one whitespace character, then drop the whole run
(the `\s+` regex fragment). -/
def dropWS1 : List Char → Option (List Char)
  | [] => none
  | c :: cs => if isWS c then some (cs.dropWhile isWS) else none

/-- Longest prefix of characters satisfying `p`, together with the rest. -/
def takeRun (p : Char → Bool) (cs : List Char) : List Char × List Char :=
  (cs.takeWhile p, cs.dropWhile p)

/-! ## Civil time → Unix seconds

Model of Go's `time.Date(y, m, d, h, mi, s, 0, time.UTC).Unix()` on the
proleptic Gregorian calendar, which is what
`time.Parse("2006-01-02 15:04:05", s).Unix()` computes (a layout without a
zone parses in UTC). -/

/-- Gregorian leap-year rule (Go `isLeap`). -/
def isLeapYear (y : Nat) : Bool :=
  y % 4 = 0 && (y % 100 ≠ 0 || y % 400 = 0)

/-- Days in a month of a given year. -/
def daysInMonth (y m : Nat) : Nat :=
  if m = 1 then 31 else if m = 2 then (if isLeapYear y then 29 else 28)
  else if m = 3 then 31 else if m = 4 then 30 else if m = 5 then 31
  else if m = 6 then 30 else if m = 7 then 31 else if m = 8 then 31
  else if m = 9 then 30 else if m = 10 then 31 else if m = 11 then 30
  else 31

/-- Day-of-era offset of `(m, d)` counted from March 1
(the standard civil-from-days construction). -/
def dayOfMarchYear (m d : Nat) : Nat :=
  (153 * (if m > 2 then m - 3 else m + 9) + 2) / 5 + (d - 1)

/-- Days since 1970-01-01 of the civil date `y-m-d` (proleptic Gregorian);
the year is shifted by 400 so the whole computation stays in `Nat`
(400 Gregorian years are exactly 146097 days). -/
def daysFromCivil (y m d : Nat) : Int :=
  let ys := y + 400
  let yy := if m ≤ 2 then ys - 1 else ys
  let era := yy / 400
  let yoe := yy % 400
  let doe := yoe * 365 + yoe / 4 - yoe / 100 + dayOfMarchYear m d
  ((era * 146097 + doe : Nat) : Int) - 719468 - 146097

/-- Unix seconds of the civil datetime `y-m-d h:mi:s` read as UTC. -/
def civilUnixUTC (y m d h mi s : Nat) : Int :=
  daysFromCivil y m d * 86400 + (h * 3600 + mi * 60 + s : Nat)

/-- Model of Go `time.Parse("2006-01-02 15:04:05", s).Unix()` on a
19-character timestamp `YYYY-MM-DD HH:MM:SS`: component ranges are
validated exactly as `time.Parse` does, and the result is the Unix
time of the civil datetime read as UTC (a layout without a time zone
yields a UTC time in Go). -/
def goTimeParseUnix (cs : List Char) : Option Int :=
  match cs with
  | [y1, y2, y3, y4, '-', m1, m2, '-', d1, d2, ' ', h1, h2, ':', i1, i2, ':', s1, s2] => do
    let y ← digitsToNat [y1, y2, y3, y4]
    let m ← digitsToNat [m1, m2]
    let d ← digitsToNat [d1, d2]
    let h ← digitsToNat [h1, h2]
    let mi ← digitsToNat [i1, i2]
    let s ← digitsToNat [s1, s2]
    if 1 ≤ m ∧ m ≤ 12 ∧ 1 ≤ d ∧ d ≤ daysInMonth y m ∧ h ≤ 23 ∧ mi ≤ 59 ∧ s ≤ 59 then
      some (civilUnixUTC y m d h mi s)
    else none
  | _ => none

/-- The parse the specification describes: `Backup finished at` timestamps
are "parsed as local time" and converted to Unix seconds.  Interpreting the
civil datetime in a local zone sitting `off` seconds east of UTC subtracts
that offset from the UTC reading (this is `time.ParseInLocation` followed by
`.Unix()`).  The code's `goTimeParseUnix` is the `off = 0` case regardless of
the host's zone. -/
def specLocalTimeUnix (off : Int) (cs : List Char) : Option Int :=
  (goTimeParseUnix cs).map (fun t => t - off)

/-! ## Backup inference engine (`collector/backup.go`)

`parseBackupLog` walks the text lines of a vzdump batch-task log keeping a
running `currentVMID`; a `Finished Backup of VM (\d+)` match sets it, and a
following `Backup finished at (\d{4}-\d{2}-\d{2} \d{2}:\d{2}:\d{2})` line
records the parsed timestamp for it, keeping the maximum per VMID. -/

/-- Match Go regex `Finished Backup of VM (\d+)` at one position: the literal
followed by at least one digit; the capture is the maximal digit run. -/
def finishedHere (cs : List Char) : Option (List Char) := do
  let rest ← dropLit "Finished Backup of VM ".toList cs
  let (run, _) := takeRun Char.isDigit rest
  if run = [] then none else some run

/-- Model of `backupFinishedRe.FindStringSubmatch`: leftmost match of
`Finished Backup of VM (\d+)` anywhere in the line, returning the capture. -/
def finishedCapture : List Char → Option (List Char)
  | [] => none
  | c :: rest =>
    match finishedHere (c :: rest) with
    | some run => some run
    | none => finishedCapture rest

/-- Match the timestamp shape `\d{4}-\d{2}-\d{2} \d{2}:\d{2}:\d{2}` at the
start of `cs`, returning the 19 matched characters. -/
def timestampHere (cs : List Char) : Option (List Char) :=
  match cs with
  | y1 :: y2 :: y3 :: y4 :: '-' :: m1 :: m2 :: '-' :: d1 :: d2 :: ' '
      :: h1 :: h2 :: ':' :: i1 :: i2 :: ':' :: s1 :: s2 :: _ =>
    if [y1, y2, y3, y4, m1, m2, d1, d2, h1, h2, i1, i2, s1, s2].all Char.isDigit then
      some [y1, y2, y3, y4, '-', m1, m2, '-', d1, d2, ' ', h1, h2, ':', i1, i2, ':', s1, s2]
    else none
  | _ => none

/-- Match `Backup finished at (\d{4}-\d{2}-\d{2} \d{2}:\d{2}:\d{2})` at one
position. -/
def backupTimeHere (cs : List Char) : Option (List Char) := do
  let rest ← dropLit "Backup finished at ".toList cs
  timestampHere rest

/-- Model of `backupTimeRe.FindStringSubmatch`: leftmost match anywhere in the line. -/
def backupTimeCapture : List Char → Option (List Char)
  | [] => none
  | c :: rest =>
    match backupTimeHere (c :: rest) with
    | some ts => some ts
    | none => backupTimeCapture rest

/-- Model of `strings.Contains(line, sub)` for a character-list substring. -/
def containsSub (sub : List Char) : List Char → Bool
  | [] => (dropLit sub []).isSome
  | c :: rest => (dropLit sub (c :: rest)).isSome || containsSub sub rest

/-- Association-list lookup (Go map read `m[k]`). -/
def alookup : List (String × Int) → String → Option Int
  | [], _ => none
  | (k, v) :: r, key => if k = key then some v else alookup r key

/-- The Go update `if existing, ok := m[id]; !ok || ts > existing { m[id] = ts }`:
returns the updated map and whether the entry was written
(the code increments its found counter exactly then). -/
def updateMax : List (String × Int) → String → Int → List (String × Int) × Bool
  | [], k, v => ([(k, v)], true)
  | (k', v') :: r, k, v =>
    if k' = k then
      if v > v' then ((k, v) :: r, true) else ((k', v') :: r, false)
    else
      let (r', b) := updateMax r k v
      ((k', v') :: r', b)

/-- The running state of the line walk of `parseBackupLog`. -/
structure BackupWalkSt where
  currentVMID : String
  foundCount  : Nat
  backups     : List (String × Int)
  deriving DecidableEq, Repr

/-- The line walk of `parseBackupLog` (backup.go:206-237): set `currentVMID`
on a `Finished Backup of VM` match; on a later `Backup finished at` line,
parse the captured timestamp with `time.Parse` (UTC — the layout carries no
zone) and record it keeping the per-VMID maximum; clear `currentVMID`;
early-exit once `foundCount` reaches `totalGuests`. -/
def backupLogWalk (totalGuests : Nat) : BackupWalkSt → List String → BackupWalkSt
  | st, [] => st
  | st, l :: rest =>
    match finishedCapture l.toList with
    | some run => backupLogWalk totalGuests { st with currentVMID := String.mk run } rest
    | none =>
      if st.currentVMID = "" ∨ ¬ containsSub "Backup finished at".toList l.toList then
        backupLogWalk totalGuests st rest
      else
        match backupTimeCapture l.toList with
        | none => backupLogWalk totalGuests st rest
        | some ts =>
          match goTimeParseUnix ts with
          | none => backupLogWalk totalGuests st rest
          | some t =>
            let (m, written) := updateMax st.backups st.currentVMID t
            let fc := st.foundCount + (if written then 1 else 0)
            let st' : BackupWalkSt := ⟨"", fc, m⟩
            if fc ≥ totalGuests then st' else backupLogWalk totalGuests st' rest

/-- The walk of `parseBackupLog` started from the empty state. -/
def parseBackupLogLines (totalGuests : Nat) (lines : List String) : BackupWalkSt :=
  backupLogWalk totalGuests ⟨"", 0, []⟩ lines

/-! ## Cluster status metrics (`collectClusterMetrics`) -/

/-- One decoded entry of the `/cluster/status` response
(the JSON struct of `collectClusterMetrics`). -/
structure ClusterEntry where
  type    : String
  name    : String
  quorate : Int
  online  : Int
  nodes   : Int
  deriving DecidableEq, Repr

/-- Result of the `/cluster/status` scan loop. -/
structure ClusterScanSt where
  samples     : List Sample
  nodesTotal  : Int
  nodesOnline : Nat
  hasCluster  : Bool
  deriving DecidableEq, Repr

/-- The entry loop of `collectClusterMetrics`: a cluster-type entry emits
the quorate gauge and overwrites `nodesTotal` with its `nodes` field; a
node-type entry bumps `nodesTotal` only while it is still zero and counts
`online == 1` entries. -/
def clusterScan : ClusterScanSt → List ClusterEntry → ClusterScanSt
  | st, [] => st
  | st, e :: rest =>
    if e.type = "cluster" then
      clusterScan { st with
        samples := st.samples ++ [⟨"pve_cluster_quorate", [], (e.quorate : ℚ)⟩],
        nodesTotal := e.nodes,
        hasCluster := true } rest
    else if e.type = "node" then
      clusterScan { st with
        nodesTotal := if st.nodesTotal = 0 then st.nodesTotal + 1 else st.nodesTotal,
        nodesOnline := st.nodesOnline + (if e.online = 1 then 1 else 0) } rest
    else clusterScan st rest

/-- The samples the `/cluster/status` part of `collectClusterMetrics` sends:
the in-loop quorate gauges, the single-node quorate fallback, then the
nodes-total and nodes-online gauges. -/
def collectClusterStatusSamples (entries : List ClusterEntry) : List Sample :=
  let st := clusterScan ⟨[], 0, 0, false⟩ entries
  st.samples
    ++ (if st.hasCluster then [] else [⟨"pve_cluster_quorate", [], 1⟩])
    ++ [⟨"pve_cluster_nodes_total", [], (st.nodesTotal : ℚ)⟩,
        ⟨"pve_cluster_nodes_online", [], (st.nodesOnline : ℚ)⟩]

/-- The value emitted for `pve_cluster_nodes_total`. -/
def clusterNodesTotalValue (entries : List ClusterEntry) : ℚ :=
  ((clusterScan ⟨[], 0, 0, false⟩ entries).nodesTotal : ℚ)

/-- The value emitted for `pve_cluster_nodes_online`. -/
def clusterNodesOnlineValue (entries : List ClusterEntry) : ℚ :=
  ((clusterScan ⟨[], 0, 0, false⟩ entries).nodesOnline : ℚ)

/-- Count of node-type entries reported online. -/
def onlineNodeCount (entries : List ClusterEntry) : Nat :=
  (entries.filter (fun e => e.type = "node" ∧ e.online = 1)).length

/-- Is some entry of cluster type? -/
def hasClusterEntry (entries : List ClusterEntry) : Bool :=
  entries.any (fun e => e.type = "cluster")

/-- Is some entry of node type? -/
def hasNodeEntry (entries : List ClusterEntry) : Bool :=
  entries.any (fun e => e.type = "node")

/-! ## Node metrics (`collectNodeMetricsWithNodes`, proxmox.go:1124-1168) -/

/-- One decoded entry of the `/nodes` response. -/
structure NodeEntry where
  node    : String
  status  : String
  uptime  : ℚ
  cpu     : ℚ
  maxcpu  : ℚ
  mem     : ℚ
  maxmem  : ℚ
  disk    : ℚ
  maxdisk : ℚ
  deriving DecidableEq, Repr

/-- The seven basic samples `collectNodeMetricsWithNodes` emits for one node
entry before spawning the detailed `/nodes/{node}/status` fetch: up flag,
uptime, CPU load, CPU count, and the memory triple with
free computed as `maxmem - mem`. -/
def emitNodeBasicSamples (e : NodeEntry) : List Sample :=
  [⟨"pve_node_up", [e.node], if e.status = "online" then 1 else 0⟩,
   ⟨"pve_node_uptime_seconds", [e.node], e.uptime⟩,
   ⟨"pve_node_cpu_load", [e.node], e.cpu⟩,
   ⟨"pve_node_cpus_total", [e.node], e.maxcpu⟩,
   ⟨"pve_node_memory_total_bytes", [e.node], e.maxmem⟩,
   ⟨"pve_node_memory_used_bytes", [e.node], e.mem⟩,
   ⟨"pve_node_memory_free_bytes", [e.node], e.maxmem - e.mem⟩]

/-- The basic-sample stream of `collectNodeMetricsWithNodes` over the decoded
`/nodes` list (the per-node detailed fetches run concurrently and add further
samples; they touch none of the memory descriptors above). -/
def collectNodeBasicSamples (entries : List NodeEntry) : List Sample :=
  entries.flatMap emitNodeBasicSamples

/-! ## ZFS ARC metrics (`collectZFSARCMetrics`, zfs.go:80-139) -/

/-- The handler table of `collectZFSARCMetrics`: kstat name ↦ (metric name,
track-as-hits, track-as-misses). -/
def arcHandler (name : String) : Option (String × Bool × Bool) :=
  if name = "size" then some ("pve_zfs_arc_size_bytes", false, false)
  else if name = "c_min" then some ("pve_zfs_arc_min_size_bytes", false, false)
  else if name = "c_max" then some ("pve_zfs_arc_max_size_bytes", false, false)
  else if name = "hits" then some ("pve_zfs_arc_hits_total", true, false)
  else if name = "misses" then some ("pve_zfs_arc_misses_total", false, true)
  else if name = "c" then some ("pve_zfs_arc_target_size_bytes", false, false)
  else if name = "l2_hits" then some ("pve_zfs_arc_l2_hits_total", false, false)
  else if name = "l2_misses" then some ("pve_zfs_arc_l2_misses_total", false, false)
  else if name = "l2_size" then some ("pve_zfs_arc_l2_size_bytes", false, false)
  else if name = "l2_hdr_size" then some ("pve_zfs_arc_l2_header_size_bytes", false, false)
  else none

/-- State of the arcstats scan: emitted samples plus the tracked
`hits` and `misses` values (both start at 0). -/
structure ArcScanSt where
  samples : List Sample
  hits    : ℚ
  misses  : ℚ
  deriving DecidableEq, Repr

/-- One line of the scanner loop of `collectZFSARCMetrics`: split the line
into fields, skip it when it has fewer than three fields or an unparseable
value field, and emit (and track) the whitelisted names. -/
def arcLineStep (hostname : String) (st : ArcScanSt) (l : String) : ArcScanSt :=
  match wsFields l.toList with
  | f0 :: _ :: f2 :: _ =>
    match parseGoNumber f2 with
    | none => st
    | some v =>
      match arcHandler (String.mk f0) with
      | none => st
      | some (mn, th, tm) =>
        { samples := st.samples ++ [⟨mn, [hostname], v⟩],
          hits := if th then v else st.hits,
          misses := if tm then v else st.misses }
  | _ => st

/-- The scanner loop of `collectZFSARCMetrics` over the arcstats lines. -/
def arcScan (hostname : String) : ArcScanSt → List String → ArcScanSt
  | st, [] => st
  | st, l :: rest => arcScan hostname (arcLineStep hostname st l) rest

/-- Full sample list of `collectZFSARCMetrics` on the given arcstats lines:
the scan's samples, then the hit-ratio gauge `(hits / total) * 100` exactly
when `total = hits + misses > 0`. -/
def collectZFSARCSamples (hostname : String) (lines : List String) : List Sample :=
  let st := arcScan hostname ⟨[], 0, 0⟩ lines
  let total := st.hits + st.misses
  st.samples ++
    (if total > 0 then [⟨"pve_zfs_arc_hit_ratio_percent", [hostname], st.hits / total * 100⟩]
     else [])

/-- The tracked `hits` value after the scan. -/
def arcHitsValue (hostname : String) (lines : List String) : ℚ :=
  (arcScan hostname ⟨[], 0, 0⟩ lines).hits

/-- The tracked `misses` value after the scan. -/
def arcMissesValue (hostname : String) (lines : List String) : ℚ :=
  (arcScan hostname ⟨[], 0, 0⟩ lines).misses

/-! ## NVMe SMART text parsing (`parseNVMeSmartText`) -/

/-- Split on newlines (`bufio.ScanLines`; the per-line `strings.TrimSpace`
applied by the caller subsumes its `\r` stripping). -/
def splitLinesGo (cs : List Char) : List (List Char) :=
  let step := fun (c : Char) (acc : List Char × List (List Char)) =>
    if c = '\n' then ([], acc.1 :: acc.2) else (c :: acc.1, acc.2)
  let r := cs.foldr step ([], [])
  r.1 :: r.2

/-- Model of `strings.TrimSpace` (ASCII whitespace). -/
def trimWS (cs : List Char) : List Char :=
  ((cs.dropWhile isWS).reverse.dropWhile isWS).reverse

/-- Is the character a digit or a comma (the `[\d,]` class)? -/
def isDigitOrComma (c : Char) : Bool :=
  c.isDigit || c = ','

/-- Regex `^Temperature:\s+(\d+)\s+Celsius` on a trimmed line; the captured
digits parsed as a number. -/
def nvmeTempCapture (cs : List Char) : Option ℚ := do
  let r1 ← dropLit "Temperature:".toList cs
  let r2 ← dropWS1 r1
  let (run, r3) := takeRun Char.isDigit r2
  if run = [] then none else do
    let r4 ← dropWS1 r3
    let _ ← dropLit "Celsius".toList r4
    parseGoNumber run

/-- Regex `^Available Spare:\s+(\d+)%`. -/
def nvmeSpareCapture (cs : List Char) : Option ℚ := do
  let r1 ← dropLit "Available Spare:".toList cs
  let r2 ← dropWS1 r1
  let (run, r3) := takeRun Char.isDigit r2
  if run = [] then none else do
    let _ ← dropLit "%".toList r3
    parseGoNumber run

/-- Regex `^Percentage Used:\s+(\d+)%`. -/
def nvmeUsedCapture (cs : List Char) : Option ℚ := do
  let r1 ← dropLit "Percentage Used:".toList cs
  let r2 ← dropWS1 r1
  let (run, r3) := takeRun Char.isDigit r2
  if run = [] then none else do
    let _ ← dropLit "%".toList r3
    parseGoNumber run

/-- Regex `^Data Units Written:\s+([\d,]+)` followed by the code's
comma-stripping and `strconv.ParseFloat`: the captured run of digits and
commas with the commas removed, parsed as a number (failing when no digit
remains). -/
def nvmeDataWrittenCapture (cs : List Char) : Option ℚ := do
  let r1 ← dropLit "Data Units Written:".toList cs
  let r2 ← dropWS1 r1
  let (run, _) := takeRun isDigitOrComma r2
  if run = [] then none else parseGoNumber (run.filter (fun c => c ≠ ','))

/-- Regex `^Power On Hours:\s+([\d,]+)` with comma-stripping and parse. -/
def nvmePowerOnHoursCapture (cs : List Char) : Option ℚ := do
  let r1 ← dropLit "Power On Hours:".toList cs
  let r2 ← dropWS1 r1
  let (run, _) := takeRun isDigitOrComma r2
  if run = [] then none else parseGoNumber (run.filter (fun c => c ≠ ','))

/-- Samples one (already trimmed) line of NVMe SMART text contributes, in the
order of the five regex checks in `parseNVMeSmartText`; the data-units-written
value is multiplied by 524288 bytes per unit. -/
def nvmeLineSamples (labels : List String) (cs : List Char) : List Sample :=
  ((nvmeTempCapture cs).map
      (fun v => Sample.mk "pve_disk_temperature_celsius" labels v)).toList
  ++ ((nvmeSpareCapture cs).map
      (fun v => Sample.mk "pve_disk_available_spare_percent" labels v)).toList
  ++ ((nvmeUsedCapture cs).map
      (fun v => Sample.mk "pve_disk_percentage_used" labels v)).toList
  ++ ((nvmeDataWrittenCapture cs).map
      (fun v => Sample.mk "pve_disk_data_written_bytes" labels (v * 524288))).toList
  ++ ((nvmePowerOnHoursCapture cs).map
      (fun v => Sample.mk "pve_disk_power_on_hours" labels v)).toList

/-- Model of `parseNVMeSmartText` (src/unnamed/part_006:165-198): scan the text line by
line, trim each line, and emit the matches of the five anchored regexes. -/
def parseNVMeSmartTextSamples (labels : List String) (text : String) : List Sample :=
  (splitLinesGo text.toList).flatMap (fun l => nvmeLineSamples labels (trimWS l))

/-! ## Disk I/O counters from the kernel diskstats pseudo-file

Modelled from the spec: the `/proc/diskstats` reader itself is absent from
`src/` — only its metric descriptors (proxmox.go:794-819), their `Describe`
lines and the repository documentation remain — so the reader is modelled
from §4.5 of the specification: each line has at least 14 whitespace fields,
field 3 (1-indexed) is the device name, fields 4, 6, 8, 10, 13 are reads
completed, sectors read, writes completed, sectors written and milliseconds
spent on I/O; partitions and virtual devices are excluded; byte counters are
`sectors × 512` and I/O time is converted to seconds. -/

/-- Does the name contain `p` followed by a digit (an NVMe partition such as
`nvme0n1p1`)? Modelled from the spec: "NVMe partitions contain `p` followed
by digits". -/
def hasPDigit : List Char → Bool
  | [] => false
  | 'p' :: c :: rest => if c.isDigit then true else hasPDigit (c :: rest)
  | _ :: rest => hasPDigit rest

/-- Modelled from the spec: a diskstats device is excluded when it is a
virtual device (`loop*`, `ram*`, `zd*`, `dm-*`) or a partition — a name
ending in a digit, except for NVMe whole disks (an `nvme*` name with no
`p`-digit sequence). -/
def excludedDiskDevice (name : List Char) : Bool :=
  (dropLit "loop".toList name).isSome
  || (dropLit "ram".toList name).isSome
  || (dropLit "zd".toList name).isSome
  || (dropLit "dm-".toList name).isSome
  || (match name.getLast? with
      | some c => c.isDigit &&
          ((dropLit "nvme".toList name).isNone || hasPDigit name)
      | none => false)

/-- Modelled from the spec: the samples one diskstats line contributes — for
a non-excluded device, each of the five counters whose field parses is
emitted, with byte counters as `sectors × 512` and the I/O time divided by
1000 to give seconds. -/
def diskstatsLineSamples (hostname : String) (cs : List Char) : List Sample :=
  match wsFields cs with
  | _ :: _ :: dev :: f3 :: _ :: f5 :: _ :: f7 :: _ :: f9 :: _ :: _ :: f12 :: _ :: _ =>
    if excludedDiskDevice dev then []
    else
      let labels := [hostname, String.mk dev]
      ((digitsToNat f3).map
          (fun n => Sample.mk "pve_disk_reads_completed_total" labels (n : ℚ))).toList
      ++ ((digitsToNat f5).map
          (fun n => Sample.mk "pve_disk_read_bytes_total" labels ((n : ℚ) * 512))).toList
      ++ ((digitsToNat f7).map
          (fun n => Sample.mk "pve_disk_writes_completed_total" labels (n : ℚ))).toList
      ++ ((digitsToNat f9).map
          (fun n => Sample.mk "pve_disk_write_bytes_total" labels ((n : ℚ) * 512))).toList
      ++ ((digitsToNat f12).map
          (fun n => Sample.mk "pve_disk_io_time_seconds_total" labels ((n : ℚ) / 1000))).toList
  | _ => []

/-- Modelled from the spec: the diskstats sub-collector over the lines of the
pseudo-file. -/
def collectDiskstatsSamples (hostname : String) (lines : List String) : List Sample :=
  lines.flatMap (fun l => diskstatsLineSamples hostname l.toList)

/-! ## Authentication and request authorization (`proxmox.go`) -/

/-- The credential fields of the Proxmox configuration the auth code reads. -/
structure PVEConfig where
  user        : String
  password    : String
  tokenID     : String
  tokenSecret : String
  deriving DecidableEq, Repr

/-- The mutable session of the collector: `ticket` and `csrf`, both the empty
string when the collector is constructed (`NewProxmoxCollector` leaves the
zero values in place). -/
structure AuthSession where
  ticket : String
  csrf   : String
  deriving DecidableEq, Repr

/-- The session `NewProxmoxCollector` starts with. -/
def initialSession : AuthSession := ⟨"", ""⟩

/-- Outcome of the `POST /access/ticket` the environment would serve:
`none` is a transport error; otherwise the HTTP status code together with
the decoded body (`none` when the body does not decode). -/
def AuthPostOutcome := Option (Nat × Option AuthSession)

/-- Result of `authenticate` (proxmox.go:1048-1089): the error-or-new-session
outcome, paired with whether an HTTP request was issued.  With a complete
token pair it returns immediately; otherwise it POSTs the password form and
fails on transport error, on a non-200 status, or on an undecodable body,
storing the decoded ticket and CSRF token on success. -/
def authenticate (cfg : PVEConfig) (st : AuthSession) (resp : AuthPostOutcome) :
    Except String AuthSession × Bool :=
  if cfg.tokenID ≠ "" ∧ cfg.tokenSecret ≠ "" then
    (.ok st, false)
  else
    match resp with
    | none => (.error "authentication failed", true)
    | some (code, body) =>
      if code ≠ 200 then (.error "authentication failed with status", true)
      else
        match body with
        | none => (.error "failed to decode auth response", true)
        | some data => (.ok ⟨data.ticket, data.csrf⟩, true)

/-- The authentication-relevant headers of an outgoing request; a fresh
`http.NewRequest` carries none of them. -/
structure RequestHeaders where
  authorization : Option String
  cookie        : Option String
  csrfToken     : Option String
  deriving DecidableEq, Repr

/-- The headers `apiRequest` (proxmox.go:1092-1121) attaches: with a complete
token pair, exactly the `Authorization: PVEAPIToken={id}={secret}` header;
otherwise the session cookie and CSRF-prevention headers. -/
def apiRequestHeaders (cfg : PVEConfig) (st : AuthSession) : RequestHeaders :=
  if cfg.tokenID ≠ "" ∧ cfg.tokenSecret ≠ "" then
    { authorization := some ("PVEAPIToken=" ++ cfg.tokenID ++ "=" ++ cfg.tokenSecret),
      cookie := none, csrfToken := none }
  else
    { authorization := none,
      cookie := some ("PVEAuthCookie=" ++ st.ticket),
      csrfToken := some st.csrf }

/-- Model of `Validate` (config/config.go): host nonempty and either a password or a
complete token pair. -/
def configValid (host : String) (cfg : PVEConfig) : Bool :=
  host ≠ "" ∧ (cfg.password ≠ "" ∨ (cfg.tokenID ≠ "" ∧ cfg.tokenSecret ≠ ""))

/-! ## Scrape orchestration (`Collect`, collect.go:13-123) -/

/-- One decoded entry of the `/cluster/resources?type=vm` response. -/
structure ResourceEntry where
  vmid   : Int
  node   : String
  name   : String
  type   : String
  status : String
  deriving DecidableEq, Repr

/-- A guest-inventory entry (`GuestInfo`). -/
structure GuestInfo where
  node : String
  name : String
  type : String
  deriving DecidableEq, Repr

/-- The guest-inventory map: vmid string ↦ guest info, with Go-map overwrite
semantics. -/
def GuestMap := List (String × GuestInfo)

/-- Go map assignment `m[k] = v`. -/
def guestInsert (m : GuestMap) (k : String) (v : GuestInfo) : GuestMap :=
  match m with
  | [] => [(k, v)]
  | (k', v') :: r => if k' = k then (k, v) :: r else (k', v') :: guestInsert r k v

/-- Result of an `apiRequest` plus decode, as the environment serves it:
outer `none` is a request error (transport or non-200), inner `none` an
unmarshal failure. -/
def FetchOutcome (α : Type) := Option (Option α)

/-- The guest map `Collect` builds from the `/cluster/resources?type=vm`
pre-fetch (collect.go:46-64): populated only when the request succeeds and
the body decodes; left empty otherwise. -/
def guestsFromResources (resources : FetchOutcome (List ResourceEntry)) : GuestMap :=
  match resources with
  | some (some entries) =>
    entries.foldl (fun m res => guestInsert m (toString res.vmid) ⟨res.node, res.name, res.type⟩) []
  | _ => []

/-- The inventory requests `fetchNodeGuests` issues for one node. -/
def fetchNodeGuestsRequests (node : String) : List String :=
  ["/nodes/" ++ node ++ "/qemu", "/nodes/" ++ node ++ "/lxc"]

/-- The requests of `fetchGuestsFallback`: the per-node inventory pair for
every node. -/
def fetchGuestsFallbackRequests (nodes : List String) : List String :=
  nodes.flatMap fetchNodeGuestsRequests

/-- The fallback inventory requests `collectBackupMetricsWithGuests`
(backup.go:31-56) issues: the per-node `/qemu` and `/lxc` fetches exactly
when the guest map it was handed is empty. -/
def backupFallbackRequests (nodes : List String) (guests : GuestMap) : List String :=
  match guests with
  | [] => fetchGuestsFallbackRequests nodes
  | _ => []

/-- What the environment serves to one invocation of `Collect`. -/
structure CollectEnv where
  authPost  : AuthPostOutcome
  nodesResp : FetchOutcome (List NodeEntry)
  resources : FetchOutcome (List ResourceEntry)

/-- The sample stream of `Collect` (collect.go:13-123), with the bodies of
the ten concurrently launched sub-collectors abstracted as `subs`:
authentication failure, a failed `/nodes` request and an undecodable
`/nodes` body each return before anything is sent on the channel; otherwise
the sub-collectors run with the node list and the pre-fetched guest map. -/
def collectSamples (cfg : PVEConfig) (st : AuthSession) (env : CollectEnv)
    (subs : AuthSession → List String → GuestMap → List Sample) : List Sample :=
  match (authenticate cfg st env.authPost).1 with
  | .error _ => []
  | .ok st' =>
    match env.nodesResp with
    | none => []
    | some none => []
    | some (some entries) =>
      subs st' (entries.map NodeEntry.node) (guestsFromResources env.resources)

/-! ## Supporting lemmas -/

/-- Overwrite-insert never yields the empty map. -/
theorem guestInsert_ne_nil (m : GuestMap) (k : String) (v : GuestInfo) :
    guestInsert m k v ≠ [] := by
  cases m with
  | nil => simp [guestInsert]
  | cons p r =>
    obtain ⟨k', v'⟩ := p
    by_cases h : k' = k <;> simp [guestInsert, h]

/-- Folding inserts over a nonempty accumulator keeps the map nonempty. -/
theorem guestFold_ne_nil (entries : List ResourceEntry) (m : GuestMap) (hm : m ≠ []) :
    entries.foldl
      (fun m res => guestInsert m (toString res.vmid) ⟨res.node, res.name, res.type⟩) m ≠ [] := by
  induction entries generalizing m with
  | nil => simpa using hm
  | cons e rest ih =>
    exact ih _ (guestInsert_ne_nil m (toString e.vmid) ⟨e.node, e.name, e.type⟩)

/-! ## C3 — authentication failure aborts the scrape with no samples -/

/-- C3: in password mode, when the `POST /access/ticket` fails — transport
error, non-200 status, or undecodable body — `Collect` returns having
emitted zero metric samples, whatever the ten sub-collectors would have
produced. -/
theorem collect_auth_failure_no_samples (cfg : PVEConfig) (st : AuthSession)
    (env : CollectEnv) (subs : AuthSession → List String → GuestMap → List Sample)
    (hmode : ¬ (cfg.tokenID ≠ "" ∧ cfg.tokenSecret ≠ ""))
    (hfail : env.authPost = none
      ∨ (∃ c b, env.authPost = some (c, b) ∧ c ≠ 200)
      ∨ (∃ c, env.authPost = some (c, none))) :
    collectSamples cfg st env subs = [] := by
  rcases hfail with h | ⟨c, b, h, hc⟩ | ⟨c, h⟩
  · simp [collectSamples, authenticate, hmode, h]
  · simp [collectSamples, authenticate, hmode, h, hc]
  · by_cases hc : c = 200
    · simp [collectSamples, authenticate, hmode, h, hc]
    · simp [collectSamples, authenticate, hmode, h, hc]

/-- Witness for C3 at a concrete password-mode configuration with a
transport error on the ticket request. -/
theorem collect_auth_failure_no_samples_witness :
    (¬ (("" : String) ≠ "" ∧ ("" : String) ≠ "")) ∧
    collectSamples ⟨"root@pam", "hunter2", "", ""⟩ initialSession
      ⟨none, some (some [⟨"pve1", "online", 1000, 1/4, 4, 8, 16, 0, 0⟩]), some (some [])⟩
      (fun _ nodes _ => nodes.map (fun n => ⟨"pve_node_up", [n], 1⟩)) = [] := by
  refine ⟨by simp, ?_⟩
  exact collect_auth_failure_no_samples _ _ _ _ (by simp) (Or.inl rfl)

/-! ## C4 — token mode sends exactly the token Authorization header -/

/-- C4: with a nonempty token id and secret, every outgoing API request
carries `Authorization: PVEAPIToken={id}={secret}` and neither a Cookie nor
a CSRFPreventionToken header. -/
theorem token_mode_headers (cfg : PVEConfig) (st : AuthSession)
    (hid : cfg.tokenID ≠ "") (hsec : cfg.tokenSecret ≠ "") :
    apiRequestHeaders cfg st =
      { authorization := some ("PVEAPIToken=" ++ cfg.tokenID ++ "=" ++ cfg.tokenSecret),
        cookie := none, csrfToken := none } := by
  simp [apiRequestHeaders, hid, hsec]

/-- Witness for C4 at a concrete token configuration. -/
theorem token_mode_headers_witness :
    (("user@pve!monitor" : String) ≠ "" ∧ ("s3cret" : String) ≠ "") ∧
    apiRequestHeaders ⟨"root@pam", "", "user@pve!monitor", "s3cret"⟩ initialSession =
      { authorization := some "PVEAPIToken=user@pve!monitor=s3cret",
        cookie := none, csrfToken := none } := by
  refine ⟨⟨by decide, by decide⟩, ?_⟩
  exact (token_mode_headers ⟨"root@pam", "", "user@pve!monitor", "s3cret"⟩ initialSession
    (by decide) (by decide)).trans (by decide)

/-! ## C10 — token credentials take precedence over a configured password -/

/-- C10: with both a password and a complete token pair configured,
`authenticate` returns success immediately without issuing any HTTP request
and without touching the session (so from the constructor's empty session
the ticket and csrf fields stay empty), and every API request carries the
token Authorization header. -/
theorem token_precedence (cfg : PVEConfig) (st : AuthSession) (r : AuthPostOutcome)
    (hpw : cfg.password ≠ "") (hid : cfg.tokenID ≠ "") (hsec : cfg.tokenSecret ≠ "") :
    authenticate cfg st r = (.ok st, false) ∧
    initialSession.ticket = "" ∧ initialSession.csrf = "" ∧
    apiRequestHeaders cfg st =
      { authorization := some ("PVEAPIToken=" ++ cfg.tokenID ++ "=" ++ cfg.tokenSecret),
        cookie := none, csrfToken := none } := by
  refine ⟨?_, rfl, rfl, by simp [apiRequestHeaders, hid, hsec]⟩
  simp [authenticate, hid, hsec]

/-- Witness for C10 at a concrete configuration carrying both credential
kinds, against a server that would reject the password. -/
theorem token_precedence_witness :
    authenticate ⟨"root@pam", "hunter2", "user@pve!monitor", "s3cret"⟩ initialSession
      (some (401, none)) = (.ok initialSession, false) ∧
    initialSession.ticket = "" ∧ initialSession.csrf = "" := by
  have h := token_precedence ⟨"root@pam", "hunter2", "user@pve!monitor", "s3cret"⟩
    initialSession (some (401, none)) (by decide) (by decide) (by decide)
  exact ⟨h.1, h.2.1, h.2.2.1⟩

/-! ## C5 — node memory used + free = total -/

/-- C5: for every node entry of the `/nodes` response, the emitted
used/free/total memory samples carry `mem`, `maxmem - mem` and `maxmem`,
and used + free = total. -/
theorem node_memory_sum (entries : List NodeEntry) (e : NodeEntry) (he : e ∈ entries) :
    Sample.mk "pve_node_memory_used_bytes" [e.node] e.mem
        ∈ collectNodeBasicSamples entries ∧
    Sample.mk "pve_node_memory_free_bytes" [e.node] (e.maxmem - e.mem)
        ∈ collectNodeBasicSamples entries ∧
    Sample.mk "pve_node_memory_total_bytes" [e.node] e.maxmem
        ∈ collectNodeBasicSamples entries ∧
    e.mem + (e.maxmem - e.mem) = e.maxmem := by
  refine ⟨?_, ?_, ?_, by ring⟩ <;>
    exact List.mem_flatMap.mpr ⟨e, he, by simp [emitNodeBasicSamples]⟩

/-- Witness for C5 at the single-node scenario of the specification. -/
theorem node_memory_sum_witness :
    Sample.mk "pve_node_memory_used_bytes" ["pve1"] 8000000000
        ∈ collectNodeBasicSamples [⟨"pve1", "online", 1000, 1/4, 4, 8000000000, 16000000000, 0, 0⟩] ∧
    Sample.mk "pve_node_memory_free_bytes" ["pve1"] 8000000000
        ∈ collectNodeBasicSamples [⟨"pve1", "online", 1000, 1/4, 4, 8000000000, 16000000000, 0, 0⟩] ∧
    (8000000000 : ℚ) + (16000000000 - 8000000000) = 16000000000 := by
  have h := node_memory_sum [⟨"pve1", "online", 1000, 1/4, 4, 8000000000, 16000000000, 0, 0⟩]
    ⟨"pve1", "online", 1000, 1/4, 4, 8000000000, 16000000000, 0, 0⟩ (by simp)
  refine ⟨h.1, ?_, h.2.2.2⟩
  have := h.2.1
  norm_num at this ⊢
  exact this

/-! ## C9 — a successful guest pre-fetch and the backup fallback -/

/-- C9 counterexample: a `/cluster/resources?type=vm` pre-fetch that succeeds
with a decodable but empty guest list leaves the guest map empty, and the
backup sub-collector then issues the per-node `/qemu` and `/lxc` fallback
fetches after all. -/
theorem backup_prefetch_fallback_false :
    backupFallbackRequests ["pve1"] (guestsFromResources (some (some []))) =
      ["/nodes/pve1/qemu", "/nodes/pve1/lxc"] ∧
    (["/nodes/pve1/qemu", "/nodes/pve1/lxc"] : List String) ≠ [] := by
  constructor
  · rfl
  · simp

/-- C9 amended: when the pre-fetch succeeds with at least one guest entry,
the backup sub-collector issues no fallback inventory fetches. -/
theorem backup_prefetch_nonempty_no_fallback (nodes : List String)
    (entries : List ResourceEntry) (hne : entries ≠ []) :
    backupFallbackRequests nodes (guestsFromResources (some (some entries))) = [] := by
  obtain ⟨e, rest, rfl⟩ : ∃ e rest, entries = e :: rest := by
    cases entries with
    | nil => exact absurd rfl hne
    | cons e rest => exact ⟨e, rest, rfl⟩
  have h : guestsFromResources (some (some (e :: rest))) ≠ [] := by
    unfold guestsFromResources
    simpa using guestFold_ne_nil rest _
      (guestInsert_ne_nil [] (toString e.vmid) ⟨e.node, e.name, e.type⟩)
  unfold backupFallbackRequests
  cases hg : guestsFromResources (some (some (e :: rest))) with
  | nil => exact absurd hg h
  | cons p r => rfl

/-- Witness for the amended C9 at a one-guest inventory. -/
theorem backup_prefetch_nonempty_no_fallback_witness :
    backupFallbackRequests ["pve1"]
      (guestsFromResources (some (some [⟨100, "pve1", "web", "qemu", "running"⟩]))) = [] :=
  backup_prefetch_nonempty_no_fallback ["pve1"] [⟨100, "pve1", "web", "qemu", "running"⟩]
    (by simp)

/-! ## C1 — backup-log timestamps -/

/-- Splitting a literal: dropping `a ++ b` is dropping `a` then `b`. -/
theorem dropLit_append (a b cs : List Char) :
    dropLit (a ++ b) cs = (dropLit a cs).bind (dropLit b) := by
  induction a generalizing cs with
  | nil => simp [dropLit]
  | cons x xs ih =>
    cases cs with
    | nil => simp [dropLit]
    | cons c cs =>
      by_cases h : c = x <;> simp [dropLit, h, ih]

/-- A `Backup finished at (\d{4}-…)` regex match implies the
`strings.Contains(line, "Backup finished at")` pre-check passes. -/
theorem backupTimeCapture_contains {cs ts : List Char}
    (h : backupTimeCapture cs = some ts) :
    containsSub "Backup finished at".toList cs = true := by
  induction cs with
  | nil => simp [backupTimeCapture] at h
  | cons c rest ih =>
    rw [backupTimeCapture] at h
    rw [containsSub]
    cases hh : backupTimeHere (c :: rest) with
    | some v =>
      have hd : (dropLit "Backup finished at ".toList (c :: rest)).isSome := by
        unfold backupTimeHere at hh
        cases hdl : dropLit "Backup finished at ".toList (c :: rest) with
        | none => rw [hdl] at hh; simp at hh
        | some r => simp [hdl]
      have hsub : (dropLit "Backup finished at".toList (c :: rest)).isSome := by
        have heq : ("Backup finished at ".toList : List Char) =
            "Backup finished at".toList ++ " ".toList := by decide
        rw [heq, dropLit_append] at hd
        cases hdl : dropLit "Backup finished at".toList (c :: rest) with
        | none => rw [hdl] at hd; simp at hd
        | some r => simp
      exact Bool.or_eq_true_iff.mpr (Or.inl hsub)
    | none =>
      rw [hh] at h
      exact Bool.or_eq_true_iff.mpr (Or.inr (ih h))

/-- Record a timestamp against an existing map entry: `t` if the key is
absent, otherwise the maximum of the old value and `t` — exactly the
`!ok || timestamp > existing` update of `parseBackupLog`. -/
def maxOpt : Option Int → Int → Int
  | none, v => v
  | some o, v => max o v

/-- The `updateMax` write leaves the key holding `maxOpt` of its old value. -/
theorem alookup_updateMax (m : List (String × Int)) (k : String) (v : Int) :
    alookup (updateMax m k v).1 k = some (maxOpt (alookup m k) v) := by
  induction m with
  | nil => simp [updateMax, alookup, maxOpt]
  | cons p r ih =>
    obtain ⟨k', v'⟩ := p
    by_cases hk : k' = k
    · subst hk
      by_cases hv : v > v'
      · simp [updateMax, alookup, maxOpt, hv, le_of_lt hv, max_eq_right (le_of_lt hv)]
      · have : max v' v = v' := max_eq_left (not_lt.mp hv)
        simp [updateMax, alookup, maxOpt, hv, this]
    · simp [updateMax, alookup, hk, ih]

/-- C1 amended: in the batch-task log walk, a line matching
`Backup finished at (\d{4}-\d{2}-\d{2} \d{2}:\d{2}:\d{2})` while a
`Finished Backup of VM` match is pending records, for that VMID, the
captured timestamp parsed by `time.Parse` — i.e. read as **UTC**, not local
time — converted to Unix seconds, keeping the maximum per VMID, and clears
the pending VMID. -/
theorem backup_time_recorded_utc_max (tg : Nat) (st : BackupWalkSt) (l : String)
    (ts : List Char) (t : Int)
    (hfin : finishedCapture l.toList = none)
    (hvm : st.currentVMID ≠ "")
    (hts : backupTimeCapture l.toList = some ts)
    (ht : goTimeParseUnix ts = some t) :
    alookup (backupLogWalk tg st [l]).backups st.currentVMID =
      some (maxOpt (alookup st.backups st.currentVMID) t) ∧
    (backupLogWalk tg st [l]).currentVMID = "" := by
  have hcont := backupTimeCapture_contains hts
  have hcond : ¬ (st.currentVMID = "" ∨
      ¬ containsSub "Backup finished at".toList l.toList) := by
    rw [not_or]
    exact ⟨hvm, fun hn => hn hcont⟩
  rcases hum : updateMax st.backups st.currentVMID t with ⟨m, written⟩
  have hm : (updateMax st.backups st.currentVMID t).1 = m := by rw [hum]
  rw [backupLogWalk, hfin]
  simp only [hcond, if_false, hts, ht, hum]
  have hl : alookup m st.currentVMID =
      some (maxOpt (alookup st.backups st.currentVMID) t) := by
    rw [← hm]; exact alookup_updateMax st.backups st.currentVMID t
  by_cases hfc : st.foundCount + (if written then 1 else 0) ≥ tg <;>
    simp [hfc, backupLogWalk, hl]

/-- Witness for the amended C1: a pending VMID with an older recorded value,
then a `Backup finished at` line; the UTC reading of the timestamp wins the
maximum. -/
theorem backup_time_recorded_utc_max_witness :
    alookup (backupLogWalk 99 ⟨"100", 0, [("100", 5)]⟩
      ["Backup finished at 2024-01-15 03:45:22"]).backups "100" = some 1705290322 ∧
    (backupLogWalk 99 ⟨"100", 0, [("100", 5)]⟩
      ["Backup finished at 2024-01-15 03:45:22"]).currentVMID = "" := by
  have h := backup_time_recorded_utc_max 99 ⟨"100", 0, [("100", 5)]⟩
    "Backup finished at 2024-01-15 03:45:22" "2024-01-15 03:45:22".toList 1705290322
    (by decide) (by decide) (by decide) (by decide)
  exact ⟨h.1.trans (by decide), h.2⟩

/-- C1 counterexample: the code parses `Backup finished at` timestamps with
`time.Parse`, which reads them as UTC.  On the scenario log the walk records
1705290322 for VM 100 — the UTC reading of `2024-01-15 03:45:22` — while
parsing that timestamp as local time in a zone one hour east of UTC
(offset 3600 s) yields 1705286722: the recorded value is not the local-time
parse. -/
theorem backup_time_parsed_as_local_false :
    alookup (parseBackupLogLines 2
      ["INFO: Starting Backup of VM 100 (qemu)",
       "Finished Backup of VM 100",
       "Backup finished at 2024-01-15 03:45:22"]).backups "100" = some 1705290322 ∧
    specLocalTimeUnix 3600 "2024-01-15 03:45:22".toList = some 1705286722 ∧
    ((1705290322 : Int) = 1705286722 → False) := by
  refine ⟨by decide, by decide, by decide⟩

/-! ## C2 — cluster nodes online vs. total -/

/-- The scan counts exactly the online node-type entries. -/
theorem clusterScan_online (l : List ClusterEntry) :
    ∀ st : ClusterScanSt, (clusterScan st l).nodesOnline = st.nodesOnline + onlineNodeCount l := by
  induction l with
  | nil => intro st; simp [clusterScan, onlineNodeCount]
  | cons e rest ih =>
    intro st
    by_cases hc : e.type = "cluster"
    · have hn : ¬ e.type = "node" := by rw [hc]; decide
      simp [clusterScan, hc, ih, onlineNodeCount, List.filter_cons, hn]
    · by_cases hn : e.type = "node"
      · by_cases ho : e.online = 1 <;>
          simp [clusterScan, hc, hn, ho, ih, onlineNodeCount, List.filter_cons] <;> omega
      · simp [clusterScan, hc, hn, ih, onlineNodeCount, List.filter_cons]

/-- With no cluster-type entry, the final total is the initial total, except
that the first node-type entry bumps a zero total to one. -/
theorem clusterScan_total_nocluster (l : List ClusterEntry) :
    ∀ st : ClusterScanSt, hasClusterEntry l = false →
      (clusterScan st l).nodesTotal =
        if st.nodesTotal = 0 then (if hasNodeEntry l then 1 else 0) else st.nodesTotal := by
  induction l with
  | nil =>
    intro st _
    by_cases h : st.nodesTotal = 0 <;> simp [clusterScan, hasNodeEntry, h]
  | cons e rest ih =>
    intro st hno
    have hc : ¬ e.type = "cluster" := by
      intro hc
      simp [hasClusterEntry, hc] at hno
    have hrest : hasClusterEntry rest = false := by
      simpa [hasClusterEntry, hc] using hno
    by_cases hn : e.type = "node"
    · by_cases hz : st.nodesTotal = 0
      · simp [clusterScan, hc, hn, hz, ih _ hrest, hasNodeEntry, List.any_cons]
      · simp [clusterScan, hc, hn, hz, ih _ hrest, hasNodeEntry, List.any_cons, hn]
    · simp [clusterScan, hc, hn, ih _ hrest, hasNodeEntry, List.any_cons]

/-- With a cluster-type entry present, any lower bound on every cluster
entry's `nodes` field bounds the final total from below. -/
theorem clusterScan_total_cluster (l : List ClusterEntry) :
    ∀ (st : ClusterScanSt) (C : Int), hasClusterEntry l = true →
      (∀ e ∈ l, e.type = "cluster" → C ≤ e.nodes) →
      C ≤ (clusterScan st l).nodesTotal := by
  induction l with
  | nil => intro st C h _; simp [hasClusterEntry] at h
  | cons e rest ih =>
    intro st C hhas hall
    by_cases hc : e.type = "cluster"
    · have hCn : C ≤ e.nodes := hall e (List.mem_cons_self e rest) hc
      rw [show clusterScan st (e :: rest) = clusterScan
          { st with
            samples := st.samples ++ [⟨"pve_cluster_quorate", [], (e.quorate : ℚ)⟩],
            nodesTotal := e.nodes,
            hasCluster := true } rest from by rw [clusterScan]; simp [hc]]
      by_cases hrest : hasClusterEntry rest = true
      · exact ih _ C hrest (fun e' he' => hall e' (List.mem_cons_of_mem e he'))
      · have hnc : hasClusterEntry rest = false := by
          simpa using hrest
        rw [clusterScan_total_nocluster rest _ hnc]
        by_cases hz : e.nodes = 0
        · have hC0 : C ≤ 0 := hz ▸ hCn
          simp only [hz, if_pos rfl]
          split <;> omega
        · simpa [hz] using hCn
    · have hrest : hasClusterEntry rest = true := by
        simpa [hasClusterEntry, hc] using hhas
      by_cases hn : e.type = "node"
      · rw [show clusterScan st (e :: rest) = clusterScan
            { st with
              nodesTotal := if st.nodesTotal = 0 then st.nodesTotal + 1 else st.nodesTotal,
              nodesOnline := st.nodesOnline + (if e.online = 1 then 1 else 0) } rest from by
            rw [clusterScan]; simp [hc, hn]]
        exact ih _ C hrest (fun e' he' => hall e' (List.mem_cons_of_mem e he'))
      · rw [show clusterScan st (e :: rest) = clusterScan st rest from by
            rw [clusterScan]; simp [hc, hn]]
        exact ih _ C hrest (fun e' he' => hall e' (List.mem_cons_of_mem e he'))

/-- An online node entry is in particular a node entry. -/
theorem onlineNodeCount_pos_hasNode (l : List ClusterEntry)
    (h : 0 < onlineNodeCount l) : hasNodeEntry l = true := by
  unfold onlineNodeCount at h
  have hne := List.length_pos.mp h
  obtain ⟨e, hp⟩ := List.exists_mem_of_ne_nil _ hne
  have hep := List.of_mem_filter hp
  have hel := List.mem_of_mem_filter hp
  simp only [decide_eq_true_eq] at hep
  exact List.any_eq_true.mpr ⟨e, hel, by simp [hep.1]⟩

/-- C2 counterexample: a `/cluster/status` response with two online
node-type entries and no cluster-type entry — the manual count caps the
total at one while counting both entries online, so the emitted
nodes-online value exceeds the nodes-total value. -/
theorem cluster_online_le_total_false :
    clusterNodesOnlineValue [⟨"node", "a", 0, 1, 0⟩, ⟨"node", "b", 0, 1, 0⟩] = 2 ∧
    clusterNodesTotalValue [⟨"node", "a", 0, 1, 0⟩, ⟨"node", "b", 0, 1, 0⟩] = 1 ∧
    ¬ (clusterNodesOnlineValue [⟨"node", "a", 0, 1, 0⟩, ⟨"node", "b", 0, 1, 0⟩] ≤
        clusterNodesTotalValue [⟨"node", "a", 0, 1, 0⟩, ⟨"node", "b", 0, 1, 0⟩]) := by
  refine ⟨by decide, by decide, by decide⟩

/-- C2 amended: the emitted `pve_cluster_nodes_online` value is at most the
emitted `pve_cluster_nodes_total` value whenever either every cluster-type
entry reports a `nodes` count at least the number of online node-type
entries (as real Proxmox cluster responses do), or there is no cluster-type
entry and at most one node entry is online (the single-node deployment the
code's fallback is written for). -/
theorem cluster_online_le_total_wellformed (entries : List ClusterEntry)
    (h : (hasClusterEntry entries = true ∧
            ∀ e ∈ entries, e.type = "cluster" → ((onlineNodeCount entries : Int) ≤ e.nodes))
       ∨ (hasClusterEntry entries = false ∧ onlineNodeCount entries ≤ 1)) :
    clusterNodesOnlineValue entries ≤ clusterNodesTotalValue entries := by
  unfold clusterNodesOnlineValue clusterNodesTotalValue
  have honline : (clusterScan ⟨[], 0, 0, false⟩ entries).nodesOnline
      = onlineNodeCount entries := by
    simpa using clusterScan_online entries ⟨[], 0, 0, false⟩
  rcases h with ⟨hhas, hall⟩ | ⟨hno, hle⟩
  · have hbound := clusterScan_total_cluster entries ⟨[], 0, 0, false⟩
      (onlineNodeCount entries : Int) hhas hall
    rw [honline]
    exact_mod_cast hbound
  · have htot := clusterScan_total_nocluster entries ⟨[], 0, 0, false⟩ hno
    rw [honline, htot]
    simp only [if_pos rfl]
    rcases Nat.eq_zero_or_pos (onlineNodeCount entries) with hz | hp
    · rw [hz]
      by_cases hnode : hasNodeEntry entries = true <;> simp [hnode]
    · have h1 : onlineNodeCount entries = 1 := le_antisymm hle hp
      rw [onlineNodeCount_pos_hasNode entries hp, h1]
      norm_num

/-- Witness for the amended C2 at a well-formed single-node cluster
response: one cluster entry reporting one node, one online node entry. -/
theorem cluster_online_le_total_wellformed_witness :
    clusterNodesOnlineValue [⟨"cluster", "c", 1, 0, 1⟩, ⟨"node", "a", 0, 1, 0⟩] ≤
      clusterNodesTotalValue [⟨"cluster", "c", 1, 0, 1⟩, ⟨"node", "a", 0, 1, 0⟩] :=
  cluster_online_le_total_wellformed
    [⟨"cluster", "c", 1, 0, 1⟩, ⟨"node", "a", 0, 1, 0⟩]
    (Or.inl ⟨by decide, by decide⟩)

/-! ## C6 — the ZFS ARC hit-ratio gauge -/

/-- No handler of the arcstats scan emits the hit-ratio descriptor. -/
theorem arcHandler_ne_ratio {name mn : String} {th tm : Bool}
    (h : arcHandler name = some (mn, th, tm)) :
    mn ≠ "pve_zfs_arc_hit_ratio_percent" := by
  unfold arcHandler at h
  repeat' split at h
  all_goals first
    | exact Option.noConfusion h
    | (injection h with h2
       intro hc
       rw [hc] at h2
       simp at h2)

/-- One scan step never emits the hit-ratio sample. -/
theorem arcLineStep_ratio_free (hostname : String) (st : ArcScanSt) (l : String)
    (hst : ∀ s ∈ st.samples, s.name ≠ "pve_zfs_arc_hit_ratio_percent") :
    ∀ s ∈ (arcLineStep hostname st l).samples,
      s.name ≠ "pve_zfs_arc_hit_ratio_percent" := by
  cases hw : wsFields l.data with
  | nil => simpa [arcLineStep, hw] using hst
  | cons f0 tl0 =>
    cases tl0 with
    | nil => simpa [arcLineStep, hw] using hst
    | cons f1 tl1 =>
      cases tl1 with
      | nil => simpa [arcLineStep, hw] using hst
      | cons f2 tail =>
        cases hv : parseGoNumber f2 with
        | none => simpa [arcLineStep, hw, hv] using hst
        | some v =>
          cases hh : arcHandler (String.mk f0) with
          | none => simpa [arcLineStep, hw, hv, hh] using hst
          | some handler =>
            obtain ⟨mn, th, tm⟩ := handler
            intro s hs
            have hs' : s ∈ st.samples ++ [Sample.mk mn [hostname] v] := by
              simpa [arcLineStep, hw, hv, hh] using hs
            rcases List.mem_append.mp hs' with h1 | h1
            · exact hst s h1
            · rw [List.mem_singleton.mp h1]
              exact arcHandler_ne_ratio hh

/-- The scan loop never emits the hit-ratio sample. -/
theorem arcScan_ratio_free (hostname : String) (lines : List String) :
    ∀ st : ArcScanSt,
      (∀ s ∈ st.samples, s.name ≠ "pve_zfs_arc_hit_ratio_percent") →
      ∀ s ∈ (arcScan hostname st lines).samples,
        s.name ≠ "pve_zfs_arc_hit_ratio_percent" := by
  induction lines with
  | nil => intro st hst; simpa [arcScan] using hst
  | cons l rest ih =>
    intro st hst
    rw [arcScan]
    exact ih _ (arcLineStep_ratio_free hostname st l hst)

/-- C6 amended: the ARC collector emits `pve_zfs_arc_hit_ratio_percent` iff
the tracked hits plus misses is positive; the emitted value is
`hits / (hits + misses) * 100`; and whenever the parsed hits and misses are
nonnegative — as kernel arcstats counters always are — the emitted value
lies in `[0, 100]`. -/
theorem arc_hit_ratio_characterization (hostname : String) (lines : List String) :
    ((∃ s ∈ collectZFSARCSamples hostname lines,
        s.name = "pve_zfs_arc_hit_ratio_percent") ↔
      0 < arcHitsValue hostname lines + arcMissesValue hostname lines) ∧
    (∀ s ∈ collectZFSARCSamples hostname lines,
        s.name = "pve_zfs_arc_hit_ratio_percent" →
        s.value = arcHitsValue hostname lines /
          (arcHitsValue hostname lines + arcMissesValue hostname lines) * 100) ∧
    (0 ≤ arcHitsValue hostname lines → 0 ≤ arcMissesValue hostname lines →
      ∀ s ∈ collectZFSARCSamples hostname lines,
        s.name = "pve_zfs_arc_hit_ratio_percent" →
        0 ≤ s.value ∧ s.value ≤ 100) := by
  have hfree := arcScan_ratio_free hostname lines ⟨[], 0, 0⟩ (by simp)
  set st := arcScan hostname ⟨[], 0, 0⟩ lines with hst
  have hhits : arcHitsValue hostname lines = st.hits := rfl
  have hmiss : arcMissesValue hostname lines = st.misses := rfl
  have hout : collectZFSARCSamples hostname lines =
      st.samples ++
        (if st.hits + st.misses > 0 then
          [⟨"pve_zfs_arc_hit_ratio_percent", [hostname],
            st.hits / (st.hits + st.misses) * 100⟩]
         else []) := rfl
  have hmem : ∀ s ∈ collectZFSARCSamples hostname lines,
      s.name = "pve_zfs_arc_hit_ratio_percent" →
      0 < st.hits + st.misses ∧
        s = ⟨"pve_zfs_arc_hit_ratio_percent", [hostname],
              st.hits / (st.hits + st.misses) * 100⟩ := by
    intro s hs hname
    rw [hout] at hs
    rcases List.mem_append.mp hs with hs | hs
    · exact absurd hname (hfree s hs)
    · by_cases hpos : 0 < st.hits + st.misses
      · rw [if_pos hpos] at hs
        exact ⟨hpos, List.mem_singleton.mp hs⟩
      · rw [if_neg hpos] at hs
        exact absurd hs (List.not_mem_nil s)
  refine ⟨⟨?_, ?_⟩, ?_, ?_⟩
  · rintro ⟨s, hs, hname⟩
    rw [hhits, hmiss]
    exact (hmem s hs hname).1
  · intro hpos
    rw [hhits, hmiss] at hpos
    refine ⟨⟨"pve_zfs_arc_hit_ratio_percent", [hostname],
      st.hits / (st.hits + st.misses) * 100⟩, ?_, rfl⟩
    rw [hout, if_pos hpos]
    simp
  · intro s hs hname
    rw [hhits, hmiss]
    rw [(hmem s hs hname).2]
  · intro hh hm s hs hname
    obtain ⟨hpos, hseq⟩ := hmem s hs hname
    rw [hhits] at hh
    rw [hmiss] at hm
    rw [hseq]
    constructor
    · show (0 : ℚ) ≤ st.hits / (st.hits + st.misses) * 100
      have h0 : (0 : ℚ) ≤ st.hits / (st.hits + st.misses) :=
        div_nonneg hh (le_of_lt hpos)
      exact mul_nonneg h0 (by norm_num)
    · show st.hits / (st.hits + st.misses) * 100 ≤ 100
      have hle : st.hits / (st.hits + st.misses) ≤ 1 :=
        (div_le_one hpos).mpr (le_add_of_nonneg_right hm)
      calc st.hits / (st.hits + st.misses) * 100 ≤ 1 * 100 :=
            mul_le_mul_of_nonneg_right hle (by norm_num)
        _ = 100 := by norm_num

/-- Witness for the amended C6 at the specification's ARC scenario:
9000 hits and 1000 misses emit a hit ratio of 90, within bounds. -/
theorem arc_hit_ratio_characterization_witness :
    ∃ s ∈ collectZFSARCSamples "h" ["hits 4 9000", "misses 4 1000"],
      s.name = "pve_zfs_arc_hit_ratio_percent" ∧
      s.value = 90 ∧ 0 ≤ s.value ∧ s.value ≤ 100 := by
  have hchar := arc_hit_ratio_characterization "h" ["hits 4 9000", "misses 4 1000"]
  have hh : arcHitsValue "h" ["hits 4 9000", "misses 4 1000"] = ((9000 : Nat) : ℚ) := rfl
  have hm : arcMissesValue "h" ["hits 4 9000", "misses 4 1000"] = ((1000 : Nat) : ℚ) := rfl
  have hpos : 0 < arcHitsValue "h" ["hits 4 9000", "misses 4 1000"]
      + arcMissesValue "h" ["hits 4 9000", "misses 4 1000"] := by
    rw [hh, hm]; norm_num
  obtain ⟨s, hs, hname⟩ := hchar.1.mpr hpos
  have hval := hchar.2.1 s hs hname
  rw [hh, hm] at hval
  norm_num at hval
  have hbounds := hchar.2.2 (by rw [hh]; norm_num) (by rw [hm]; norm_num) s hs hname
  exact ⟨s, hs, hname, hval, hbounds.1, hbounds.2⟩

/-- C6 counterexample: on an arcstats file whose `hits` value parses
negative (`strconv.ParseFloat` accepts a sign), the collector emits a
hit-ratio sample with value −100, outside `[0, 100]`. -/
theorem arc_hit_ratio_range_false :
    ∃ s ∈ collectZFSARCSamples "h" ["hits 4 -100", "misses 4 200"],
      s.name = "pve_zfs_arc_hit_ratio_percent" ∧ s.value = -100 ∧ ¬ (0 ≤ s.value) := by
  have hh : arcHitsValue "h" ["hits 4 -100", "misses 4 200"] = -((100 : Nat) : ℚ) := rfl
  have hm : arcMissesValue "h" ["hits 4 -100", "misses 4 200"] = ((200 : Nat) : ℚ) := rfl
  set st := arcScan "h" ⟨[], 0, 0⟩ ["hits 4 -100", "misses 4 200"] with hst
  have hout : collectZFSARCSamples "h" ["hits 4 -100", "misses 4 200"] =
      st.samples ++
        (if st.hits + st.misses > 0 then
          [⟨"pve_zfs_arc_hit_ratio_percent", ["h"],
            st.hits / (st.hits + st.misses) * 100⟩]
         else []) := rfl
  have hhits : st.hits = -((100 : Nat) : ℚ) := hh
  have hmiss : st.misses = ((200 : Nat) : ℚ) := hm
  have hpos : 0 < st.hits + st.misses := by rw [hhits, hmiss]; norm_num
  have hval : st.hits / (st.hits + st.misses) * 100 = -100 := by
    rw [hhits, hmiss]; norm_num
  refine ⟨⟨"pve_zfs_arc_hit_ratio_percent", ["h"],
    st.hits / (st.hits + st.misses) * 100⟩, ?_, rfl, hval, ?_⟩
  · rw [hout, if_pos hpos]
    simp
  · rw [hval]
    norm_num


/-! ## C8 — NVMe SMART data-units-written -/

/-- Membership in the list of an `Option.map` forces the option to be a
matching `some`. -/
theorem mem_optMap_toList {α β : Type} {o : Option α} {f : α → β} {b : β}
    (h : b ∈ (o.map f).toList) : ∃ a, o = some a ∧ b = f a := by
  cases o with
  | none => simp at h
  | some a =>
    simp at h
    exact ⟨a, rfl, h⟩

/-- C8: when parsing NVMe SMART text, every line whose trimmed form matches
`^Data Units Written:\s+([\d,]+)` with comma-stripped value `n` emits
`pve_disk_data_written_bytes = n × 524288`, and conversely every
data-written sample emitted arises that way from some line. -/
theorem nvme_data_written_bytes (labels : List String) (text : String) :
    (∀ l ∈ splitLinesGo text.data, ∀ n : ℚ,
        nvmeDataWrittenCapture (trimWS l) = some n →
        Sample.mk "pve_disk_data_written_bytes" labels (n * 524288) ∈
          parseNVMeSmartTextSamples labels text) ∧
    (∀ s ∈ parseNVMeSmartTextSamples labels text,
        s.name = "pve_disk_data_written_bytes" →
        ∃ l ∈ splitLinesGo text.data, ∃ n : ℚ,
          nvmeDataWrittenCapture (trimWS l) = some n ∧
          s.labels = labels ∧ s.value = n * 524288) := by
  constructor
  · intro l hl n hcap
    exact List.mem_flatMap.mpr ⟨l, hl, by simp [nvmeLineSamples, hcap]⟩
  · intro s hs hname
    obtain ⟨l, hl, hline⟩ := List.mem_flatMap.mp hs
    refine ⟨l, hl, ?_⟩
    rcases List.mem_append.mp hline with h4 | h5
    · rcases List.mem_append.mp h4 with h3 | hDW
      · rcases List.mem_append.mp h3 with h2 | hU
        · rcases List.mem_append.mp h2 with hT | hS
          · obtain ⟨v, _, hv⟩ := mem_optMap_toList hT
            rw [hv] at hname
            exact absurd hname (by simp)
          · obtain ⟨v, _, hv⟩ := mem_optMap_toList hS
            rw [hv] at hname
            exact absurd hname (by simp)
        · obtain ⟨v, _, hv⟩ := mem_optMap_toList hU
          rw [hv] at hname
          exact absurd hname (by simp)
      · obtain ⟨n, hc, hv⟩ := mem_optMap_toList hDW
        exact ⟨n, hc, by rw [hv], by rw [hv]⟩
    · obtain ⟨v, _, hv⟩ := mem_optMap_toList h5
      rw [hv] at hname
      exact absurd hname (by simp)

/-- Witness for C8 at the specification's concrete SMART line:
`Data Units Written: 124,766,241 [63.8 TB]` emits
`124766241 × 524288 = 65413442961408` bytes. -/
theorem nvme_data_written_bytes_witness :
    Sample.mk "pve_disk_data_written_bytes" ["pve1", "/dev/nvme0n1", "M", "S", "nvme"]
        (((124766241 : Nat) : ℚ) * 524288) ∈
      parseNVMeSmartTextSamples ["pve1", "/dev/nvme0n1", "M", "S", "nvme"]
        "Data Units Written:                 124,766,241 [63.8 TB]" ∧
    ((124766241 : Nat) : ℚ) * 524288 = 65413442961408 := by
  constructor
  · exact (nvme_data_written_bytes ["pve1", "/dev/nvme0n1", "M", "S", "nvme"]
      "Data Units Written:                 124,766,241 [63.8 TB]").1
      "Data Units Written:                 124,766,241 [63.8 TB]".data
      (by decide) ((124766241 : Nat) : ℚ) (by rfl)
  · norm_num

/-! ## C7 — diskstats byte and time conversions -/

/-- C7 (spec-modelled): for every diskstats line of a non-excluded device
whose sectors-read, sectors-written and I/O-milliseconds fields parse as
`r`, `w` and `ms`, the collector emits `read_bytes_total = r × 512`,
`write_bytes_total = w × 512` and `io_time_seconds_total = ms / 1000`. -/
theorem diskstats_sector_bytes (hostname : String) (lines : List String) (l : String)
    (hl : l ∈ lines)
    (a b dev f3 f4 f5 f6 f7 f8 f9 f10 f11 f12 f13 : List Char)
    (tail : List (List Char))
    (hf : wsFields l.data = a :: b :: dev :: f3 :: f4 :: f5 :: f6 :: f7
        :: f8 :: f9 :: f10 :: f11 :: f12 :: f13 :: tail)
    (hex : excludedDiskDevice dev = false)
    (r w ms : Nat)
    (hr : digitsToNat f5 = some r) (hw : digitsToNat f9 = some w)
    (hms : digitsToNat f12 = some ms) :
    Sample.mk "pve_disk_read_bytes_total" [hostname, String.mk dev] ((r : ℚ) * 512) ∈
      collectDiskstatsSamples hostname lines ∧
    Sample.mk "pve_disk_write_bytes_total" [hostname, String.mk dev] ((w : ℚ) * 512) ∈
      collectDiskstatsSamples hostname lines ∧
    Sample.mk "pve_disk_io_time_seconds_total" [hostname, String.mk dev] ((ms : ℚ) / 1000) ∈
      collectDiskstatsSamples hostname lines := by
  refine ⟨?_, ?_, ?_⟩ <;>
    exact List.mem_flatMap.mpr
      ⟨l, hl, by simp [diskstatsLineSamples, hf, hex, hr, hw, hms]⟩

/-- Witness for C7 at a concrete diskstats line for `sda`:
2048 sectors read → 1048576 bytes, 4096 sectors written → 2097152 bytes,
3000 ms of I/O → 3 seconds. -/
theorem diskstats_sector_bytes_witness :
    Sample.mk "pve_disk_read_bytes_total" ["h", "sda"] (((2048 : Nat) : ℚ) * 512) ∈
      collectDiskstatsSamples "h" ["8 0 sda 100 10 2048 30 50 5 4096 40 0 3000 70"] ∧
    Sample.mk "pve_disk_write_bytes_total" ["h", "sda"] (((4096 : Nat) : ℚ) * 512) ∈
      collectDiskstatsSamples "h" ["8 0 sda 100 10 2048 30 50 5 4096 40 0 3000 70"] ∧
    ((2048 : Nat) : ℚ) * 512 = 1048576 ∧ ((3000 : Nat) : ℚ) / 1000 = 3 := by
  have h := diskstats_sector_bytes "h" ["8 0 sda 100 10 2048 30 50 5 4096 40 0 3000 70"]
    "8 0 sda 100 10 2048 30 50 5 4096 40 0 3000 70" (by simp)
    "8".toList "0".toList "sda".toList "100".toList "10".toList "2048".toList
    "30".toList "50".toList "5".toList "4096".toList "40".toList "0".toList
    "3000".toList "70".toList [] (by decide) (by decide)
    2048 4096 3000 (by decide) (by decide) (by decide)
  exact ⟨h.1, h.2.1, by norm_num, by norm_num⟩

end PveExporter
